import Mathlib

/-!
Shallow embedding of the PeekBack local-cache / bulk-import pipeline
(`src/utils/osmImporter.js`, `src/utils/indexedDB.js`, and the Firestore
service layer), together with theorems settling the specification claims.

JavaScript numbers are modelled with exact arithmetic: coordinates as `ℚ`
(they are only copied or combined with `+ - * /` in the modelled code) and
millisecond timestamps as `ℤ`.  Asynchronous I/O is modelled by threading
explicit state and by oracles giving the outcome of each external call;
`setTimeout` delays are recorded in an explicit wait log.
-/

namespace PeekBack

/-- Bounding box `{south, west, north, east}` as used throughout
`osmImporter.js`.  Coordinates are degrees, modelled as rationals. -/
structure BBox where
  south : ℚ
  north : ℚ
  west : ℚ
  east : ℚ
deriving Repr, DecidableEq

/-- Model of `splitBoundingBox(bounds, chunksPerDimension)` from `osmImporter.js`:
splits a bounding box into an `n × n` grid; row index `i` runs over
latitude, column index `j` over longitude, cells pushed in row-major
order. -/
def splitBoundingBox (bounds : BBox) (chunksPerDimension : ℕ) : List BBox :=
  let latRange := bounds.north - bounds.south
  let lonRange := bounds.east - bounds.west
  let latChunkSize := latRange / chunksPerDimension
  let lonChunkSize := lonRange / chunksPerDimension
  (List.range chunksPerDimension).flatMap (fun (i : ℕ) =>
    (List.range chunksPerDimension).map (fun (j : ℕ) =>
      { south := bounds.south + ((i : ℚ) * latChunkSize)
        north := bounds.south + (((i : ℚ) + 1) * latChunkSize)
        west := bounds.west + ((j : ℚ) * lonChunkSize)
        east := bounds.west + (((j : ℚ) + 1) * lonChunkSize) }))

/-- The cell pushed by `splitBoundingBox` for row `i`, column `j`
(the loop body of the double `for` loop, lines 25-30 of the source). -/
def gridCell (bounds : BBox) (n : ℕ) (i j : ℕ) : BBox :=
  { south := bounds.south + ((i : ℚ) * ((bounds.north - bounds.south) / n))
    north := bounds.south + (((i : ℚ) + 1) * ((bounds.north - bounds.south) / n))
    west := bounds.west + ((j : ℚ) * ((bounds.east - bounds.west) / n))
    east := bounds.west + (((j : ℚ) + 1) * ((bounds.east - bounds.west) / n)) }

/-- Membership of a point in a bounding box (all four bounds inclusive). -/
def inBox (b : BBox) (lat lon : ℚ) : Prop :=
  b.south ≤ lat ∧ lat ≤ b.north ∧ b.west ≤ lon ∧ lon ≤ b.east

/-- Strict interior of a bounding box. -/
def inInterior (b : BBox) (lat lon : ℚ) : Prop :=
  b.south < lat ∧ lat < b.north ∧ b.west < lon ∧ lon < b.east

/-! ### JavaScript string primitives

`String.includes` and `String.toLowerCase` are re-implemented over the
character list so that the kernel can evaluate them (the modelled tag
values are ASCII). -/

/-- Does the character list start with the pattern? (helper for
`jsIncludes`). -/
def listStarts : List Char → List Char → Bool
  | _, [] => true
  | [], _ :: _ => false
  | a :: as, b :: bs => (a = b : Bool) && listStarts as bs

/-- Does the character list contain the pattern as a contiguous infix? -/
def listHasInfix : List Char → List Char → Bool
  | [], pat => pat.isEmpty
  | s@(_ :: rest), pat => listStarts s pat || listHasInfix rest pat

/-- JavaScript `s.includes(pat)`. -/
def jsIncludes (s pat : String) : Bool := listHasInfix s.data pat.data

/-- JavaScript `s.toLowerCase()` (ASCII case folding). -/
def jsToLower (s : String) : String := String.mk (s.data.map Char.toLower)

/-- JavaScript truthiness for an optional string field: `undefined`,
`null` and the empty string are falsy. -/
def jsTruthy (o : Option String) : Bool := !(o.getD "" = "")

/-! ### OSM elements (`{elements: [...]}` envelope of the Overpass API) -/

/-- OSM element kind. -/
inductive OSMKind where
  | node
  | way
  | rel
deriving Repr, DecidableEq

/-- The JS string for an OSM element kind (the `type` property of an
element, interpolated into document ids). -/
def OSMKind.str : OSMKind → String
  | .node => "node"
  | .way => "way"
  | .rel => "relation"

/-- The OSM tag fields read by `convertOSMToPeekBack`.  A tag that is
not present on the element is `none` (`tags || {}` in the source makes a
missing tags object behave as the all-absent record). -/
structure Tags where
  brand : Option String := none
  operator : Option String := none
  manufacturer : Option String := none
  surveillanceType : Option String := none
  surveillance : Option String := none
  manMade : Option String := none
  direction : Option String := none
  note : Option String := none
  description : Option String := none
  addrFull : Option String := none
  addrStreet : Option String := none
  addrCity : Option String := none
  name : Option String := none
deriving Repr, DecidableEq

/-- One element of the Overpass response:
`{type, id, lat?, lon?, center?: {lat, lon}, tags}`.  `lat`/`lon` are
present on nodes; ways/relations carry a `center`. -/
structure Element where
  type : OSMKind
  id : Int
  lat : Option ℚ := none
  lon : Option ℚ := none
  center : Option (ℚ × ℚ) := none
  tags : Tags := {}
deriving Repr, DecidableEq

/-! ### `queryOSMALPRs`: single-region query with retry/backoff

The HTTP layer is abstracted by an oracle `responses : Nat → FetchOutcome`
giving the outcome of the fetch performed at retry count `k`.  The model
records every `setTimeout` backoff wait (in ms) in order, and returns the
function's result: the element list, or the message of the error the JS
function finally throws. -/

/-- Outcome of one `fetch` of the Overpass endpoint: an OK response with
the parsed `elements` array, a non-OK response with its status code and
status text, or a thrown error (network failure or JSON parse failure)
with its message. -/
inductive FetchOutcome where
  | ok (elements : List Element)
  | httpErr (status : Nat) (statusText : String)
  | thrown (msg : String)

instance {ε α : Type} [DecidableEq ε] [DecidableEq α] : DecidableEq (Except ε α) := fun x y =>
  match x, y with
  | .error e, .error f =>
    if h : e = f then isTrue (by rw [h]) else isFalse (fun hc => h (by cases hc; rfl))
  | .error _, .ok _ => isFalse (fun hc => Except.noConfusion hc)
  | .ok _, .error _ => isFalse (fun hc => Except.noConfusion hc)
  | .ok a, .ok b =>
    if h : a = b then isTrue (by rw [h]) else isFalse (fun hc => h (by cases hc; rfl))

/-- Result of a `queryOSMALPRs` run: the backoff waits performed (ms,
in order) and the returned elements or the thrown error message. -/
structure QueryRun where
  waits : List Nat
  result : Except String (List Element)
deriving Repr, DecidableEq

/-- Backoff before a rate-limit retry:
`Math.min(5000 * Math.pow(2, retryCount), 30000)`. -/
def rateLimitWait (retryCount : Nat) : Nat := min (5000 * 2 ^ retryCount) 30000

/-- Backoff before a server-error retry:
`Math.min(3000 * Math.pow(2, retryCount), 20000)`. -/
def serverErrorWait (retryCount : Nat) : Nat := min (3000 * 2 ^ retryCount) 20000

/-- Backoff before a network/JSON-error retry:
`Math.min(2000 * Math.pow(2, retryCount), 10000)`. -/
def networkErrorWait (retryCount : Nat) : Nat := min (2000 * 2 ^ retryCount) 10000

/-- Error message thrown when rate-limit retries are exhausted. -/
def rateLimitMsg : String :=
  "Rate limit exceeded after multiple retries. Please try again later with a smaller region."

/-- Error message thrown when server-error retries are exhausted. -/
def serverErrorMsg (status : Nat) (statusText : String) : String :=
  "Server error (" ++ toString status ++ "): " ++ statusText ++
    ". Please try again with a smaller region."

/-- Error message thrown for any other non-OK response. -/
def overpassErrMsg (statusText : String) : String :=
  "Overpass API error: " ++ statusText

/-- The body of `queryOSMALPRs(bounds, _, retryCount, maxRetries)`.
Branches mirror the source: 429/503 retried with `rateLimitWait`; 504 or
≥500 retried with `serverErrorWait`; every error thrown inside the `try`
block falls into the `catch`, which retries (with `networkErrorWait`)
only when the message contains `fetch` or `JSON` and the retry budget
remains, and otherwise rethrows.  The recursion always increments
`retryCount` and is guarded by `retryCount < maxRetries`, so the
structural `fuel = maxRetries + 1 - retryCount` supplied by the wrapper
never runs out; the `fuel = 0` branch is unreachable. -/
def queryGo (bounds : BBox) (responses : Nat → FetchOutcome)
    (maxRetries : Nat) : (fuel : Nat) → (retryCount : Nat) → QueryRun
  | 0, _ => { waits := [], result := .error "out of fuel (unreachable)" }
  | fuel + 1, retryCount =>
  match responses retryCount with
  | .ok elements => { waits := [], result := .ok elements }
  | .httpErr status statusText =>
    if status = 429 ∨ status = 503 then
      if retryCount < maxRetries then
        let r := queryGo bounds responses maxRetries fuel (retryCount + 1)
        { waits := rateLimitWait retryCount :: r.waits, result := r.result }
      else
        -- thrown, then caught: `rateLimitMsg` contains neither `fetch` nor `JSON`
        if retryCount < maxRetries ∧
            (jsIncludes rateLimitMsg "fetch" ∨ jsIncludes rateLimitMsg "JSON") then
          let r := queryGo bounds responses maxRetries fuel (retryCount + 1)
          { waits := networkErrorWait retryCount :: r.waits, result := r.result }
        else
          { waits := [], result := .error rateLimitMsg }
    else if status = 504 ∨ 500 ≤ status then
      if retryCount < maxRetries then
        let r := queryGo bounds responses maxRetries fuel (retryCount + 1)
        { waits := serverErrorWait retryCount :: r.waits, result := r.result }
      else
        if retryCount < maxRetries ∧
            (jsIncludes (serverErrorMsg status statusText) "fetch" ∨
              jsIncludes (serverErrorMsg status statusText) "JSON") then
          let r := queryGo bounds responses maxRetries fuel (retryCount + 1)
          { waits := networkErrorWait retryCount :: r.waits, result := r.result }
        else
          { waits := [], result := .error (serverErrorMsg status statusText) }
    else
      if retryCount < maxRetries ∧
          (jsIncludes (overpassErrMsg statusText) "fetch" ∨
            jsIncludes (overpassErrMsg statusText) "JSON") then
        let r := queryGo bounds responses maxRetries fuel (retryCount + 1)
        { waits := networkErrorWait retryCount :: r.waits, result := r.result }
      else
        { waits := [], result := .error (overpassErrMsg statusText) }
  | .thrown msg =>
    if retryCount < maxRetries ∧ (jsIncludes msg "fetch" ∨ jsIncludes msg "JSON") then
      let r := queryGo bounds responses maxRetries fuel (retryCount + 1)
      { waits := networkErrorWait retryCount :: r.waits, result := r.result }
    else
      { waits := [], result := .error msg }

/-- Model of `queryOSMALPRs(bounds, progressCallback, retryCount, maxRetries)`:
the source entry point (defaults `retryCount = 0`, `maxRetries = 3`). -/
def queryOSMALPRs (bounds : BBox) (responses : Nat → FetchOutcome)
    (retryCount : Nat) (maxRetries : Nat) : QueryRun :=
  queryGo bounds responses maxRetries (maxRetries + 1 - retryCount) retryCount

/-! ### `queryOSMALPRsBatched`: grid-chunked query with dedup

The per-chunk HTTP layer is an oracle `responses : Nat → Nat → FetchOutcome`
(`responses i k` is the outcome of attempt `k` of chunk index `i`,
0-based).  The fixed 2.5 s inter-chunk delay and the post-failure
cooldowns are pure sleeps with no state effect and are not recorded.
The JS function *returns* only the deduplicated element array; the
failure list reaches the caller only through the final progress-callback
event, which the model captures in the `failedChunks` and `status`
fields. -/

/-- One entry of the `failedChunks` list:
`{chunk: i + 1, error: error.message}`. -/
structure FailedChunk where
  chunk : Nat
  error : String
deriving Repr, DecidableEq

/-- Observable outcome of a `queryOSMALPRsBatched` run.  `ret` is the JS
return value; `failedChunks` and `status` are what the final
progress-callback event reports. -/
structure BatchedRun where
  ret : List Element
  failedChunks : List FailedChunk
  status : String
deriving Repr, DecidableEq

/-- The `for` loop of `queryOSMALPRsBatched`: query each chunk in order,
collecting the successful chunks' elements (in order) and a
`{chunk: i+1, error}` entry for each failed chunk. -/
def batchedLoop (responses : Nat → Nat → FetchOutcome) :
    List BBox → Nat → List Element × List FailedChunk
  | [], _ => ([], [])
  | c :: rest, i =>
    let run := queryOSMALPRs c (responses i) 0 3
    let acc := batchedLoop responses rest (i + 1)
    match run.result with
    | .ok elements => (elements ++ acc.1, acc.2)
    | .error msg => (acc.1, ⟨i + 1, msg⟩ :: acc.2)

/-- One step of building the JS `Map` from `[el.id, el]` pairs: an
existing key keeps its position but its value is overwritten
(last-write-wins); a new key is appended. -/
def jsMapInsert (acc : List (Int × Element)) (k : Int) (v : Element) :
    List (Int × Element) :=
  if acc.any (fun p => p.1 = k) then
    acc.map (fun p => if p.1 = k then (k, v) else p)
  else acc ++ [(k, v)]

/-- Model of `new Map(allElements.map(el => [el.id, el]))` built by insertion. -/
def jsMapOfElements (l : List Element) : List (Int × Element) :=
  l.foldl (fun acc el => jsMapInsert acc el.id el) []

/-- Model of `Array.from(new Map(allElements.map(el => [el.id, el])).values())`:
deduplicate by OSM id, last occurrence's value at the first occurrence's
position. -/
def dedupById (l : List Element) : List Element :=
  (jsMapOfElements l).map (fun p => p.2)

/-- Model of `queryOSMALPRsBatched(bounds, chunksPerDimension, cb)`. -/
def queryOSMALPRsBatched (bounds : BBox) (chunksPerDimension : Nat)
    (responses : Nat → Nat → FetchOutcome) : BatchedRun :=
  let chunks := splitBoundingBox bounds chunksPerDimension
  let acc := batchedLoop responses chunks 0
  let uniqueElements := dedupById acc.1
  { ret := uniqueElements
    failedChunks := acc.2
    status := if acc.2.length > 0 then "partial" else "complete" }

/-! ### `convertOSMToPeekBack` and `generateOSMDocumentId` -/

/-- The device object produced by `convertOSMToPeekBack`.  `latitude` and
`longitude` are `Option` because a node's missing `lat`/`lon` propagates
as `undefined` in JS.  `importedAt` (an ISO date string from
`new Date().toISOString()`) is an explicit argument of the model. -/
structure PBDevice where
  type : String
  latitude : Option ℚ
  longitude : Option ℚ
  address : Option String
  description : Option String
  source : String
  osmId : Int
  osmType : OSMKind
  importedAt : String
deriving Repr, DecidableEq

/-- Model of `if (tags.f) descriptionParts.push(txt)` — contributes `[txt]` when
the tag is present and nonempty (JS truthiness), else nothing. -/
def descPart (o : Option String) (render : String → String) : List String :=
  match o with
  | some s => if s = "" then [] else [render s]
  | none => []

/-- The `descriptionParts` list, pushed in source order. -/
def descriptionParts (tags : Tags) : List String :=
  descPart tags.brand (fun s => "Brand: " ++ s) ++
  descPart tags.manufacturer (fun s => "Manufacturer: " ++ s) ++
  descPart tags.operator (fun s => "Operator: " ++ s) ++
  descPart tags.surveillanceType (fun s => "Type: " ++ s) ++
  descPart tags.surveillance (fun s => "Surveillance: " ++ s) ++
  descPart tags.direction (fun s => "Direction: " ++ s) ++
  descPart tags.note (fun s => s) ++
  descPart tags.description (fun s => s)

/-- The device-category decision of `convertOSMToPeekBack`: brand /
operator / manufacturer substring matches first, then the surveillance
tags, then the `man_made=surveillance` fallback, else `other`. -/
def deviceTypeOf (tags : Tags) : String :=
  let brand := jsToLower (tags.brand.getD "")
  let operator := jsToLower (tags.operator.getD "")
  let manufacturer := jsToLower (tags.manufacturer.getD "")
  if jsIncludes brand "flock" || jsIncludes operator "flock" ||
      jsIncludes manufacturer "flock" then
    "flock"
  else if jsIncludes brand "vigilant" || jsIncludes brand "motorola" ||
      jsIncludes brand "genetec" || jsIncludes operator "vigilant" ||
      jsIncludes operator "motorola" || jsIncludes operator "genetec" then
    "license_plate_reader"
  else if tags.surveillanceType = some "ALPR" || tags.surveillance = some "ALPR" ||
      tags.surveillanceType = some "alpr" || tags.surveillance = some "alpr" then
    "license_plate_reader"
  else if tags.surveillanceType = some "camera" || tags.surveillance = some "camera" ||
      tags.surveillanceType = some "Camera" || tags.surveillance = some "Camera" then
    "security_camera"
  else if tags.surveillanceType = some "traffic" || tags.surveillance = some "traffic" ||
      tags.surveillanceType = some "Traffic" || tags.surveillance = some "Traffic" then
    "traffic_camera"
  else if tags.manMade = some "surveillance" then
    "security_camera"
  else
    "other"

/-- The `address` expression:
`tags['addr:full'] || (street && city ? street + ", " + city : tags.name) || null`. -/
def addressOf (tags : Tags) : Option String :=
  if jsTruthy tags.addrFull then tags.addrFull
  else
    let mid : Option String :=
      if jsTruthy tags.addrStreet ∧ jsTruthy tags.addrCity then
        some (tags.addrStreet.getD "" ++ ", " ++ tags.addrCity.getD "")
      else tags.name
    if jsTruthy mid then mid else none

/-- Model of `convertOSMToPeekBack(osmElement)`: `none` models the JS `null`
return for an element with no resolvable coordinate (not a node and no
`center`). -/
def convertOSMToPeekBack (osmElement : Element) (importedAt : String) :
    Option PBDevice :=
  let coords : Option (Option ℚ × Option ℚ) :=
    if osmElement.type = OSMKind.node then
      some (osmElement.lat, osmElement.lon)
    else
      match osmElement.center with
      | some c => some (some c.1, some c.2)
      | none => none
  match coords with
  | none => none
  | some latlon =>
    let tags := osmElement.tags
    let parts := descriptionParts tags
    some
      { type := deviceTypeOf tags
        latitude := latlon.1
        longitude := latlon.2
        address := addressOf tags
        description :=
          if parts.length > 0 then some (String.intercalate " | " parts) else none
        source := "osm"
        osmId := osmElement.id
        osmType := osmElement.type
        importedAt := importedAt }

/-- Model of `generateOSMDocumentId(osmId, osmType)`: the deterministic
`osm_{type}_{id}` composition (negative ids print with a leading minus,
e.g. `osm_way_-123`). -/
def generateOSMDocumentId (osmId : Int) (osmType : OSMKind) : String :=
  "osm_" ++ osmType.str ++ "_" ++ toString osmId

/-! ### `importOSMData`: batched bulk import

The batch-write function is the JS callback `batchAddDevices`; the model
is generic over a state type `σ` so that a write may be an arbitrary
(possibly stateful, possibly throwing) function:
`write s batch batchIds = (s', outcome)` where `outcome = some msg`
models a thrown error with message `msg`. -/

/-- Model of `reportedBy` attribution block (no email, by design). -/
structure ReportedBy where
  uid : String
  isAnonymous : Bool
deriving Repr, DecidableEq

/-- The authenticated user passed to `importOSMData`. -/
structure ImportUser where
  uid : String
  isAnonymous : Bool
deriving Repr, DecidableEq

/-- A record pushed onto `devicesToImport`: the converted device minus
the `source`/`osmType`/`importedAt` metadata, plus attribution and vote
counters. -/
structure ImportDoc where
  type : String
  latitude : Option ℚ
  longitude : Option ℚ
  address : Option String
  description : Option String
  osmId : Int
  reportedBy : ReportedBy
  thumbsUp : Option Nat
  thumbsUpUsers : Option (List String)
  inactiveReports : Option Nat
  inactiveReportUsers : Option (List String)
deriving Repr, DecidableEq

/-- The object spread `{...firestoreData, osmId, reportedBy, thumbsUp: 0, ...}`
built for each convertible element. -/
def mkImportDoc (user : ImportUser) (d : PBDevice) : ImportDoc :=
  { type := d.type
    latitude := d.latitude
    longitude := d.longitude
    address := d.address
    description := d.description
    osmId := d.osmId
    reportedBy := { uid := user.uid, isAnonymous := user.isAnonymous }
    thumbsUp := some 0
    thumbsUpUsers := some []
    inactiveReports := some 0
    inactiveReportUsers := some [] }

/-- One entry of `results.errorsList`:
`{error: error.message, batch: batchNumber, count: batch.length}`. -/
structure BatchError where
  error : String
  batch : Nat
  count : Nat
deriving Repr, DecidableEq

/-- The import results object returned by `importOSMData`. -/
structure ImportResults where
  total : Nat
  imported : Nat
  skipped : Nat
  errors : Nat
  errorsList : List BatchError
deriving Repr, DecidableEq

/-- The conversion loop of `importOSMData`: builds `devicesToImport` and
`documentIds` in input order and counts `skipped` (elements whose
conversion returns `null`). -/
def convertPhase (user : ImportUser) (importedAt : String) :
    List Element → List ImportDoc × List String × Nat
  | [] => ([], [], 0)
  | el :: rest =>
    let acc := convertPhase user importedAt rest
    match convertOSMToPeekBack el importedAt with
    | none => (acc.1, acc.2.1, acc.2.2 + 1)
    | some deviceData =>
      (mkImportDoc user deviceData :: acc.1,
        generateOSMDocumentId deviceData.osmId deviceData.osmType :: acc.2.1,
        acc.2.2)

/-- The batch-write loop of `importOSMData`:
`for (let i = 0; i < devicesToImport.length; i += BATCH_SIZE)` with
`BATCH_SIZE = 500`.  `remaining` is the number of loop iterations left
(`totalBatches` at entry, one per started batch, making the recursion
structural) and `i` the running start index; `slice(i, i + 500)` is
`(drop i).take 500` and `batchNumber = Math.floor(i / 500) + 1`.  A
successful batch adds its length to `imported`; a throwing batch adds
its length to `errors` and appends an `errorsList` entry; the loop
continues either way.  Returns the final write state and
`(imported, errors, errorsList)`. -/
def importBatches {σ : Type}
    (write : σ → List ImportDoc → List String → σ × Option String)
    (devices : List ImportDoc) (ids : List String) :
    (remaining : Nat) → (i : Nat) → σ → σ × Nat × Nat × List BatchError
  | 0, _, s => (s, 0, 0, [])
  | r + 1, i, s =>
    let batch := (devices.drop i).take 500
    let batchIds := (ids.drop i).take 500
    let batchNumber := i / 500 + 1
    let step := write s batch batchIds
    let rest := importBatches write devices ids r (i + 500) step.1
    match step.2 with
    | none => (rest.1, batch.length + rest.2.1, rest.2.2.1, rest.2.2.2)
    | some msg =>
      (rest.1, rest.2.1, batch.length + rest.2.2.1,
        ⟨msg, batchNumber, batch.length⟩ :: rest.2.2.2)

/-- Model of `importOSMData(osmElements, batchAddDevices, user)`: conversion
phase followed by the batched commit. -/
def importOSMData {σ : Type}
    (write : σ → List ImportDoc → List String → σ × Option String)
    (s : σ) (osmElements : List Element) (user : ImportUser)
    (importedAt : String) : σ × ImportResults :=
  let conv := convertPhase user importedAt osmElements
  let totalBatches := (conv.1.length + 499) / 500
  let run := importBatches write conv.1 conv.2.1 totalBatches 0 s
  (run.1,
    { total := osmElements.length
      imported := run.2.1
      skipped := conv.2.2
      errors := run.2.2.1
      errorsList := run.2.2.2 })

/-! ### The remote store and `batchAddDevices` (Firestore service layer)

The `devices` collection is a keyed document store: an association list
from document id to document, in creation order, with `set(docRef, doc,
{merge: false})` overwriting in place.  `serverTimestamp()` is the
commit-time clock, passed as an explicit `now`.  Auto-generated document
ids (`doc(devicesRef)` without an explicit id) are modelled by a fresh-id
counter, standing in for Firestore's random unique ids. -/

/-- A committed document of the `devices` collection as written by
`batchAddDevices`: the payload plus timestamps, with the `??` defaults
applied to the vote fields. -/
structure FSDoc where
  type : String
  latitude : Option ℚ
  longitude : Option ℚ
  address : Option String
  description : Option String
  osmId : Int
  reportedBy : ReportedBy
  createdAt : Int
  updatedAt : Int
  thumbsUp : Nat
  thumbsUpUsers : List String
  inactiveReports : Nat
  inactiveReportUsers : List String
deriving Repr, DecidableEq

/-- The `deviceDoc` object built inside `batchAddDevices`:
`{...deviceData, createdAt: serverTimestamp(), updatedAt:
serverTimestamp(), thumbsUp: deviceData.thumbsUp ?? 0, ...}`. -/
def mkFSDoc (now : Int) (d : ImportDoc) : FSDoc :=
  { type := d.type
    latitude := d.latitude
    longitude := d.longitude
    address := d.address
    description := d.description
    osmId := d.osmId
    reportedBy := d.reportedBy
    createdAt := now
    updatedAt := now
    thumbsUp := d.thumbsUp.getD 0
    thumbsUpUsers := d.thumbsUpUsers.getD []
    inactiveReports := d.inactiveReports.getD 0
    inactiveReportUsers := d.inactiveReportUsers.getD [] }

/-- The remote `devices` collection plus the fresh-id counter. -/
structure FSStore where
  docs : List (String × FSDoc)
  nextAuto : Nat
deriving Repr, DecidableEq

/-- Model of `batch.set(docRef, doc, {merge: false})`: overwrite the document at
the key if it exists (keeping its position), else append it. -/
def fsSet (docs : List (String × FSDoc)) (id : String) (d : FSDoc) :
    List (String × FSDoc) :=
  if docs.any (fun p => p.1 = id) then
    docs.map (fun p => if p.1 = id then (id, d) else p)
  else docs ++ [(id, d)]

/-- A fresh auto-generated document id (Firestore random ids modelled by
a counter guaranteeing uniqueness). -/
def autoId (k : Nat) : String := "auto_" ++ toString k

/-- Model of `batchAddDevices(devicesArray, documentIds)` from the Firestore
service layer.  Returns the store after the call together with
`some message` when the call throws.  An empty array returns early
without writing; the 500-document limit and the id-count mismatch throw
before the write batch is built; otherwise all writes commit
atomically. -/
def batchAddDevices (s : FSStore) (now : Int) (devicesArray : List ImportDoc)
    (documentIds : Option (List String)) : FSStore × Option String :=
  if devicesArray.isEmpty then (s, none)
  else if devicesArray.length > 500 then
    (s, some "Batch size exceeds Firestore limit of 500 operations")
  else if (match documentIds with
      | some ids => ids.length != devicesArray.length
      | none => false) then
    (s, some "documentIds array must match devicesArray length")
  else
    match documentIds with
    | some ids =>
      ({ s with
          docs := (devicesArray.zip ids).foldl
            (fun acc p => fsSet acc p.2 (mkFSDoc now p.1)) s.docs },
        none)
    | none =>
      let final := devicesArray.foldl
        (fun (acc : List (String × FSDoc) × Nat) d =>
          (fsSet acc.1 (autoId acc.2) (mkFSDoc now d), acc.2 + 1))
        (s.docs, s.nextAuto)
      ({ docs := final.1, nextAuto := final.2 }, none)

/-- Model of `importOSMData` wired to the real `batchAddDevices` against the
remote store (the composition exercised by the import page). -/
def importOSMDataFS (s : FSStore) (now : Int) (osmElements : List Element)
    (user : ImportUser) (importedAt : String) : FSStore × ImportResults :=
  importOSMData (fun st batch batchIds => batchAddDevices st now batch (some batchIds))
    s osmElements user importedAt

/-! ### The local cache (`indexedDB.js`)

One object store (`devices`) with `keyPath: 'id'`, holding the device
records and, under the reserved key `cache_metadata`, the cache-metadata
singleton.  The store is an association list in insertion order with
`put` = upsert-by-key.  Timestamps are `Date.now()` milliseconds (`ℤ`).
The model covers the success path; storage-engine failures are
environmental and outside the claims. -/

/-- A cached device record (fields relevant to the cache layer). -/
structure CacheDevice where
  id : String
  latitude : ℚ
  longitude : ℚ
  type : String
deriving Repr, DecidableEq

/-- The cache-metadata payload `{timestamp, deviceCount}`.  A JS object
whose `timestamp` field is missing or otherwise falsy is modelled by
`timestamp = 0` (`!metadata.timestamp` cannot distinguish them). -/
structure CacheMeta where
  timestamp : Int
  deviceCount : Nat
deriving Repr, DecidableEq

/-- A record of the `devices` object store: either a device or the
metadata singleton `{id: 'cache_metadata', ...metadata}`. -/
inductive StoredRec where
  | dev (d : CacheDevice)
  | meta (m : CacheMeta)
deriving Repr, DecidableEq

/-- Model of `CACHE_META_KEY`. -/
def CACHE_META_KEY : String := "cache_metadata"

/-- The `keyPath` (`id` property) of a stored record. -/
def recId : StoredRec → String
  | .dev d => d.id
  | .meta _ => CACHE_META_KEY

/-- Is the record the cache-metadata singleton (as opposed to a device
record)? -/
def isMetaRec : StoredRec → Bool
  | .dev _ => false
  | .meta _ => true

/-- The IndexedDB object-store state. -/
abbrev CacheDB : Type := List StoredRec

/-- Model of `store.put(record)`: update the record at the key if present
(keeping its position), else append. -/
def idbPut (db : CacheDB) (r : StoredRec) : CacheDB :=
  if db.any (fun x => recId x = recId r) then
    db.map (fun x => if recId x = recId r then r else x)
  else db ++ [r]

/-- Model of `store.delete(id)`. -/
def idbDelete (db : CacheDB) (id : String) : CacheDB :=
  db.filter (fun x => recId x ≠ id)

/-- Model of `getAllDevices()`: `store.getAll()` — the full contents of the
object store, with no filtering. -/
def getAllDevices (db : CacheDB) : List StoredRec := db

/-- Model of `storeCacheMetadata(metadata)`:
`store.put({id: CACHE_META_KEY, ...metadata})`. -/
def storeCacheMetadata (db : CacheDB) (m : CacheMeta) : CacheDB :=
  idbPut db (.meta m)

/-- Model of `getCacheMetadata()`: `store.get(CACHE_META_KEY)` destructured as
`{id, ...metadata}`; no record gives `null`.  A device record stored
under the reserved key destructures to an object with no `timestamp`
field, modelled as the all-falsy `⟨0, 0⟩`. -/
def getCacheMetadata (db : CacheDB) : Option CacheMeta :=
  match db.find? (fun x => recId x = CACHE_META_KEY) with
  | some (.meta m) => some m
  | some (.dev _) => some ⟨0, 0⟩
  | none => none

/-- Model of `hours24 = 24 * 60 * 60 * 1000`. -/
def hours24 : Int := 24 * 60 * 60 * 1000

/-- Model of `isCacheStale()`: stale when there is no metadata, when its
`timestamp` is falsy (`!metadata.timestamp`), or when
`Date.now() - metadata.timestamp > hours24`. -/
def isCacheStale (db : CacheDB) (now : Int) : Bool :=
  match getCacheMetadata db with
  | none => true
  | some metadata =>
    if metadata.timestamp = 0 then true
    else decide (now - metadata.timestamp > hours24)

/-- Model of `storeDevices(devices, isFullRefresh)` (success path).  An empty (or
null) `devices` argument clears the store when `isFullRefresh` and then
— in every case — writes fresh metadata `{timestamp: now, deviceCount:
0}`.  A non-empty argument optionally clears, `put`s every device (the
2000-record batching only affects transaction boundaries, not the
resulting state), reconciles deletions for incremental updates, writes
metadata `{timestamp: now, deviceCount: devices.length}`, and returns
`true`. -/
def storeDevices (db : CacheDB) (devices : List CacheDevice)
    (isFullRefresh : Bool) (now : Int) : CacheDB × Bool :=
  if devices.isEmpty then
    let db1 := if isFullRefresh then ([] : CacheDB) else db
    (storeCacheMetadata db1 ⟨now, 0⟩, true)
  else
    let db1 := if isFullRefresh then ([] : CacheDB) else db
    let db2 := devices.foldl (fun acc d => idbPut acc (.dev d)) db1
    let db3 :=
      if !isFullRefresh then
        let existingDevices := getAllDevices db2
        let newDeviceIds := devices.map (fun d => d.id)
        let devicesToRemove := existingDevices.filter
          (fun r => recId r ≠ CACHE_META_KEY ∧ ¬ newDeviceIds.contains (recId r))
        devicesToRemove.foldl (fun acc r => idbDelete acc (recId r)) db2
      else db2
    (storeCacheMetadata db3 ⟨now, devices.length⟩, true)

/-- Model of `clearCache()`. -/
def clearCache (_db : CacheDB) : CacheDB := []

/-! ### Concrete inputs used by witnesses and counterexamples -/

/-- A convertible OSM node (bare surveillance node, no tags). -/
def aNode : Element := { type := .node, id := 42, lat := some 1, lon := some 2 }

/-- The 1200 convertible records: the input of end-to-end scenario C. -/
def c1Elements : List Element := List.replicate 1200 aNode

/-- A batch-write mock whose state records the size of every batch it
is called with, and which throws on the second call (batch 2), as in
scenario C. -/
def c1Write : List Nat → List ImportDoc → List String → List Nat × Option String :=
  fun sizes batch _ =>
    (sizes ++ [batch.length], if sizes.length = 1 then some "Simulated write failure" else none)

/-- The scenario-C run: 1200 converted records, batch 2 throws. -/
def c1Run : List Nat × ImportResults :=
  importOSMData c1Write [] c1Elements ⟨"importer", false⟩ "2026-01-01T00:00:00.000Z"

/-- A unit region for single-chunk batched-query runs. -/
def unitRegion : BBox := { south := 0, north := 1, west := 0, east := 1 }

/-- Batched run whose single chunk fails permanently with a
non-retryable HTTP 400. -/
def c2RunFailed : BatchedRun :=
  queryOSMALPRsBatched unitRegion 1 (fun _ _ => .httpErr 400 "Bad Request")

/-- Batched run whose single chunk succeeds with an empty result. -/
def c2RunEmpty : BatchedRun :=
  queryOSMALPRsBatched unitRegion 1 (fun _ _ => .ok [])

/-- A cached device record. -/
def aCacheDevice : CacheDevice := { id := "d1", latitude := 1, longitude := 2, type := "flock" }

/-- A reachable cache state: one device stored by a full refresh at
`t = 50` (the store then holds the device and the metadata record). -/
def c3State : CacheDB := (storeDevices [] [aCacheDevice] true 50).1

/-- A cache state holding one device and metadata written at `t = 5`. -/
def c8State : CacheDB := [.dev aCacheDevice, .meta ⟨5, 1⟩]

/-- A cache state whose metadata timestamp is `1000`. -/
def c5Db : CacheDB := [.meta ⟨1000, 3⟩]

/-- A store-ready import document. -/
def c7Doc : ImportDoc :=
  { type := "other", latitude := some 1, longitude := some 2, address := none,
    description := none, osmId := 1, reportedBy := ⟨"u", false⟩,
    thumbsUp := some 0, thumbsUpUsers := some [], inactiveReports := some 0,
    inactiveReportUsers := some [] }

/-- An empty remote store. -/
def emptyFS : FSStore := ⟨[], 0⟩

/-- The full specification of `splitBoundingBox` proved by claim C6:
`n * n` cells; every cell spans `latRange / n` by `lonRange / n`; the
cells are exactly the `gridCell`s; their union is exactly the original
box; distinct cells have disjoint interiors; and each cell's north/east
boundary is its neighbour's south/west boundary. -/
def SplitSpec (b : BBox) (n : ℕ) : Prop :=
  (splitBoundingBox b n).length = n * n ∧
  (∀ c ∈ splitBoundingBox b n,
    c.north - c.south = (b.north - b.south) / n ∧
    c.east - c.west = (b.east - b.west) / n) ∧
  (∀ c, c ∈ splitBoundingBox b n ↔ ∃ i < n, ∃ j < n, c = gridCell b n i j) ∧
  (∀ lat lon, inBox b lat lon ↔ ∃ c ∈ splitBoundingBox b n, inBox c lat lon) ∧
  (∀ i j i' j', (i, j) ≠ (i', j') → ∀ lat lon,
    ¬(inInterior (gridCell b n i j) lat lon ∧ inInterior (gridCell b n i' j') lat lon)) ∧
  (∀ i j, (gridCell b n (i + 1) j).south = (gridCell b n i j).north ∧
    (gridCell b n i (j + 1)).west = (gridCell b n i j).east)

/-! ## Theorems settling the claims -/

/-- Claim C9: when every attempt of the external geodata query is answered
with HTTP 429 or 503, `queryOSMALPRs` retries the identical query (the
oracle is re-consulted for the same fixed `bounds`) with backoff waits
5 s, 10 s, 20 s — the formula `min(5000·2^k, 30000)` starts at 5 s,
doubles each attempt and is capped at 30 s — performs at most 3 retries,
and after exhausting them throws the rate-limit-exhausted error instead
of returning a result. -/
theorem claim_C9_rate_limit_backoff :
    (∀ (bounds : BBox) (responses : Nat → FetchOutcome),
      (∀ k, k ≤ 3 → ∃ t, responses k = .httpErr 429 t ∨ responses k = .httpErr 503 t) →
      queryOSMALPRs bounds responses 0 3 =
        { waits := [5000, 10000, 20000], result := .error rateLimitMsg }) ∧
    rateLimitWait 0 = 5000 ∧
    (∀ k, rateLimitWait (k + 1) = min (2 * rateLimitWait k) 30000) := by
  refine ⟨?_, by decide, ?_⟩
  · intro bounds responses h
    obtain ⟨t0, h0⟩ := h 0 (by omega)
    obtain ⟨t1, h1⟩ := h 1 (by omega)
    obtain ⟨t2, h2⟩ := h 2 (by omega)
    obtain ⟨t3, h3⟩ := h 3 (by omega)
    rcases h0 with h0 | h0 <;> rcases h1 with h1 | h1 <;>
      rcases h2 with h2 | h2 <;> rcases h3 with h3 | h3 <;>
      simp [queryOSMALPRs, queryGo, h0, h1, h2, h3, rateLimitWait]
  · intro k
    simp only [rateLimitWait, pow_succ]
    omega

/-- Witness for C9: the all-429 oracle exhausts the three retries. -/
theorem claim_C9_witness :
    queryOSMALPRs unitRegion (fun _ => .httpErr 429 "Too Many Requests") 0 3 =
      { waits := [5000, 10000, 20000], result := .error rateLimitMsg } :=
  claim_C9_rate_limit_backoff.1 unitRegion _
    (fun _ _ => ⟨"Too Many Requests", Or.inl rfl⟩)

/-- Claim C5: `isCacheStale` returns true exactly when the metadata is
absent, its timestamp is absent/falsy (the JS `!metadata.timestamp`,
modelled by `timestamp = 0`), or `now - timestamp > 24h`; and for any
fixed present (non-falsy) timestamp it is monotonic in the age with its
single threshold crossing at exactly 24 h (age equal to 24 h is not
stale). -/
theorem claim_C5_staleness_threshold :
    (∀ (db : CacheDB) (now : Int),
      isCacheStale db now = true ↔
        getCacheMetadata db = none ∨
          ∃ md, getCacheMetadata db = some md ∧
            (md.timestamp = 0 ∨ now - md.timestamp > hours24)) ∧
    (∀ (db : CacheDB) (md : CacheMeta), getCacheMetadata db = some md →
      md.timestamp ≠ 0 →
      (∀ a b : Int, a ≤ b →
        isCacheStale db (md.timestamp + a) = true →
        isCacheStale db (md.timestamp + b) = true) ∧
      isCacheStale db (md.timestamp + hours24) = false ∧
      isCacheStale db (md.timestamp + hours24 + 1) = true) := by
  constructor
  · intro db now
    cases hmd : getCacheMetadata db with
    | none => simp [isCacheStale, hmd]
    | some md =>
      by_cases hts : md.timestamp = 0
      · simp [isCacheStale, hmd, hts]
      · simp [isCacheStale, hmd, hts]
  · intro db md hmd hts
    refine ⟨?_, ?_, ?_⟩
    · intro a b hab
      simp only [isCacheStale, hmd, if_neg hts, decide_eq_true_eq]
      omega
    · simp only [isCacheStale, hmd, if_neg hts, decide_eq_false_iff_not]
      omega
    · simp only [isCacheStale, hmd, if_neg hts, decide_eq_true_eq]
      omega

/-- Witness for C5: metadata written at `t = 1000` is not stale at age
exactly 24 h and stale one millisecond later. -/
theorem claim_C5_witness :
    isCacheStale c5Db (1000 + hours24) = false ∧
    isCacheStale c5Db (1000 + hours24 + 1) = true := by
  have h := claim_C5_staleness_threshold.2 c5Db ⟨1000, 3⟩ (by decide) (by decide)
  exact ⟨h.2.1, h.2.2⟩

/-- Claim C7: `batchAddDevices` called with more than 500 records throws
the batch-size error before touching the store (the returned store is
the argument store and no write batch is constructed), and a
`documentIds` array whose length differs from a non-empty records array
likewise fails fast with the store unchanged. -/
theorem claim_C7_fail_fast_guards :
    (∀ (s : FSStore) (now : Int) (records : List ImportDoc) (ids : Option (List String)),
      records.length > 500 →
      batchAddDevices s now records ids =
        (s, some "Batch size exceeds Firestore limit of 500 operations")) ∧
    (∀ (s : FSStore) (now : Int) (records : List ImportDoc) (l : List String),
      records ≠ [] → l.length ≠ records.length →
      (batchAddDevices s now records (some l)).1 = s ∧
        (batchAddDevices s now records (some l)).2.isSome = true) := by
  constructor
  · intro s now records ids h
    have hne : records ≠ [] := by
      intro e
      subst e
      simp at h
    simp [batchAddDevices, List.isEmpty_iff, hne, h]
  · intro s now records l hne hlen
    by_cases h5 : records.length > 500
    · simp [batchAddDevices, List.isEmpty_iff, hne, h5]
    · simp [batchAddDevices, List.isEmpty_iff, hne, h5, hlen]

/-- Witness for C7: 501 records are rejected with the store untouched,
and a length-mismatched id array is rejected with the store untouched. -/
theorem claim_C7_witness :
    batchAddDevices emptyFS 0 (List.replicate 501 c7Doc) none =
      (emptyFS, some "Batch size exceeds Firestore limit of 500 operations") ∧
    (batchAddDevices emptyFS 0 [c7Doc] (some [])).1 = emptyFS ∧
    (batchAddDevices emptyFS 0 [c7Doc] (some [])).2.isSome = true := by
  have h1 := claim_C7_fail_fast_guards.1 emptyFS 0 (List.replicate 501 c7Doc) none
    (by rw [List.length_replicate]; omega)
  have h2 := claim_C7_fail_fast_guards.2 emptyFS 0 [c7Doc] [] (by simp) (by simp)
  exact ⟨h1, h2.1, h2.2⟩

set_option maxRecDepth 200000 in
/-- Claim C1 counterexample: in scenario C (1200 converted records
partitioned into batches of 500, 500 and 200, batch 2 throwing), the
result's `errors` field is 500 — the record count of the failed batch —
not 200 as the claim states (the claimed `700 + 200` cannot account for
all 1200 records). -/
theorem claim_C1_counterexample :
    c1Run.2.imported = 700 ∧ c1Run.2.errors = 500 ∧ ¬(c1Run.2.errors = 200) := by
  decide

set_option maxRecDepth 200000 in
/-- Claim C1 amended: the 1200 converted records are written in 3 batches
of sizes 500, 500 and 200; when batch 2 throws, the result is
`{total: 1200, imported: 700, skipped: 0, errors: 500, errorsList:
[{error, batch: 2, count: 500}]}`, and batch 3 is still attempted (the
write mock records all three calls). -/
theorem claim_C1_amended :
    c1Run.1 = [500, 500, 200] ∧
    c1Run.2 =
      { total := 1200
        imported := 700
        skipped := 0
        errors := 500
        errorsList := [{ error := "Simulated write failure", batch := 2, count := 500 }] } := by
  decide

/-- Lemma: `recId` of the metadata record is the reserved key. -/
theorem recId_meta (m : CacheMeta) : recId (.meta m) = CACHE_META_KEY := rfl

/-- Lemma: `recId` of a device record is the device id. -/
theorem recId_dev (d : CacheDevice) : recId (.dev d) = d.id := rfl

/-- Finding the metadata key in a store with the fresh metadata record
appended, when no earlier record holds the reserved key. -/
theorem find_meta_of_all_not (db : CacheDB) (m : CacheMeta)
    (h : ∀ x ∈ db, recId x ≠ CACHE_META_KEY) :
    (db ++ [StoredRec.meta m]).find? (fun x => recId x = CACHE_META_KEY) =
      some (.meta m) := by
  induction db with
  | nil =>
    simp only [List.nil_append]
    exact List.find?_cons_of_pos _ (by simp [recId_meta])
  | cons a rest ih =>
    simp only [List.cons_append]
    rw [List.find?_cons_of_neg _ (by simp [h a (by simp)])]
    exact ih (fun x hx => h x (by simp [hx]))

/-- Finding the metadata key after the in-place overwrite performed by
`put` when the key is already present. -/
theorem find_meta_map_put (db : CacheDB) (m : CacheMeta)
    (h : db.any (fun x => recId x = recId (StoredRec.meta m)) = true) :
    (db.map (fun x => if recId x = recId (StoredRec.meta m) then StoredRec.meta m
        else x)).find? (fun x => recId x = CACHE_META_KEY) = some (.meta m) := by
  induction db with
  | nil => simp at h
  | cons a rest ih =>
    by_cases ha : recId a = recId (StoredRec.meta m)
    · simp only [List.map_cons, if_pos ha]
      exact List.find?_cons_of_pos _ (by simp [recId_meta])
    · have h' : rest.any (fun x => recId x = recId (StoredRec.meta m)) = true := by
        simp only [List.any_cons, Bool.or_eq_true, decide_eq_true_eq] at h
        tauto
      have ha' : ¬(recId a = CACHE_META_KEY) := by
        rw [recId_meta] at ha
        exact ha
      simp only [List.map_cons, if_neg ha]
      rw [List.find?_cons_of_neg _ (by simp [ha'])]
      exact ih h'

/-- After `storeCacheMetadata`, looking up the metadata key finds
exactly the new metadata record. -/
theorem find_meta_storeCacheMetadata (db : CacheDB) (m : CacheMeta) :
    (storeCacheMetadata db m).find? (fun x => recId x = CACHE_META_KEY) =
      some (.meta m) := by
  unfold storeCacheMetadata idbPut
  by_cases h : db.any (fun x => recId x = recId (StoredRec.meta m))
  · rw [if_pos h]
    exact find_meta_map_put db m h
  · rw [if_neg h]
    refine find_meta_of_all_not db m ?_
    intro x hx e
    refine h ?_
    simp only [List.any_eq_true, decide_eq_true_eq]
    exact ⟨x, hx, by rw [recId_meta]; exact e⟩

/-- Lemma: `getCacheMetadata` after `storeCacheMetadata` returns the stored
metadata. -/
theorem getCacheMetadata_storeCacheMetadata (db : CacheDB) (m : CacheMeta) :
    getCacheMetadata (storeCacheMetadata db m) = some m := by
  unfold getCacheMetadata
  rw [find_meta_storeCacheMetadata]

/-- Lemma: `storeCacheMetadata` leaves the device records of the store
untouched, provided no device record sits under the reserved metadata
key. -/
theorem filter_dev_storeCacheMetadata (db : CacheDB) (m : CacheMeta)
    (h : ∀ r ∈ db, isMetaRec r = false → recId r ≠ CACHE_META_KEY) :
    (storeCacheMetadata db m).filter (fun r => !isMetaRec r) =
      db.filter (fun r => !isMetaRec r) := by
  unfold storeCacheMetadata idbPut
  by_cases hany : db.any (fun x => recId x = recId (StoredRec.meta m))
  · rw [if_pos hany]
    clear hany
    induction db with
    | nil => simp
    | cons a rest ih =>
      have ha := h a (by simp)
      have hrest : ∀ r ∈ rest, isMetaRec r = false → recId r ≠ CACHE_META_KEY :=
        fun r hr => h r (by simp [hr])
      by_cases hk : recId a = recId (StoredRec.meta m)
      · cases a with
        | dev d =>
          rw [recId_meta] at hk
          exact absurd hk (ha rfl)
        | meta m' =>
          simp only [List.map_cons, if_pos hk]
          rw [List.filter_cons_of_neg (by simp [isMetaRec]),
            List.filter_cons_of_neg (by simp [isMetaRec])]
          exact ih hrest
      · simp only [List.map_cons, if_neg hk, List.filter_cons, ih hrest]
  · rw [if_neg hany]
    simp [List.filter_append, isMetaRec]

/-- Lemma: `put`ting a run of fresh devices (pairwise-distinct ids, none
already present) appends them in order. -/
theorem foldl_idbPut_devs : ∀ (ds : List CacheDevice) (db : CacheDB),
    (∀ d ∈ ds, ∀ r ∈ db, recId r ≠ d.id) →
    (ds.map (fun d => d.id)).Nodup →
    ds.foldl (fun acc d => idbPut acc (.dev d)) db = db ++ ds.map StoredRec.dev := by
  intro ds
  induction ds with
  | nil => intro db _ _; simp
  | cons d rest ih =>
    intro db hcol hnodup
    have hput : idbPut db (.dev d) = db ++ [.dev d] := by
      unfold idbPut
      rw [if_neg]
      simp only [List.any_eq_true, decide_eq_true_eq, not_exists, not_and]
      intro x hx
      rw [recId_dev]
      exact hcol d (by simp) x hx
    have hcol2 : ∀ d2 ∈ rest, ∀ r ∈ db ++ [StoredRec.dev d], recId r ≠ d2.id := by
      intro d2 hd2 r hr
      rcases List.mem_append.mp hr with hr | hr
      · exact hcol d2 (by simp [hd2]) r hr
      · simp only [List.mem_singleton] at hr
        subst hr
        rw [recId_dev]
        simp only [List.map_cons, List.nodup_cons] at hnodup
        intro e
        exact hnodup.1 (e ▸ List.mem_map_of_mem _ hd2)
    have hnodup2 : (rest.map (fun d => d.id)).Nodup := by
      simp only [List.map_cons, List.nodup_cons] at hnodup
      exact hnodup.2
    simp only [List.foldl_cons, hput, ih (db ++ [StoredRec.dev d]) hcol2 hnodup2]
    simp

/-- With no record under the reserved key, `storeCacheMetadata`
appends the metadata record. -/
theorem storeCacheMetadata_append (db : CacheDB) (m : CacheMeta)
    (h : ∀ r ∈ db, recId r ≠ CACHE_META_KEY) :
    storeCacheMetadata db m = db ++ [.meta m] := by
  unfold storeCacheMetadata idbPut
  rw [if_neg]
  simp only [List.any_eq_true, decide_eq_true_eq, not_exists, not_and]
  intro x hx
  rw [recId_meta]
  exact h x hx

/-- Claim C8 counterexample: on the cache state holding one device and
metadata written at `t = 5`, `storeDevices([], false)` is *not* a no-op:
it leaves the device records alone but overwrites the cache metadata
with `{timestamp: now, deviceCount: 0}`. -/
theorem claim_C8_counterexample :
    (storeDevices c8State [] false 100).1 ≠ c8State ∧
    getCacheMetadata (storeDevices c8State [] false 100).1 ≠
      getCacheMetadata c8State := by
  decide

/-- Claim C8 amended: `storeDevices` with an empty record list clears the
device store when `fullRefresh` is true (the resulting store holds only
the fresh metadata); when `fullRefresh` is false the device records are
left unchanged — but in both cases the cache metadata is overwritten
with `{timestamp: now, deviceCount: 0}`, and the call reports
success. -/
theorem claim_C8_amended :
    ∀ (db : CacheDB) (now : Int),
      storeDevices db [] true now = ([.meta ⟨now, 0⟩], true) ∧
      ((∀ r ∈ db, isMetaRec r = false → recId r ≠ CACHE_META_KEY) →
        (storeDevices db [] false now).1.filter (fun r => !isMetaRec r) =
          db.filter (fun r => !isMetaRec r) ∧
        getCacheMetadata (storeDevices db [] false now).1 = some ⟨now, 0⟩ ∧
        (storeDevices db [] false now).2 = true) := by
  intro db now
  constructor
  · simp [storeDevices, storeCacheMetadata, idbPut]
  · intro h
    have hsd : storeDevices db [] false now = (storeCacheMetadata db ⟨now, 0⟩, true) := by
      simp [storeDevices]
    rw [hsd]
    exact ⟨filter_dev_storeCacheMetadata db _ h,
      getCacheMetadata_storeCacheMetadata db _, rfl⟩

/-- Witness for C8: the amended behavior on the concrete state
`c8State` at `now = 100`. -/
theorem claim_C8_witness :
    storeDevices c8State [] true 100 = ([.meta ⟨100, 0⟩], true) ∧
    (storeDevices c8State [] false 100).1.filter (fun r => !isMetaRec r) =
      c8State.filter (fun r => !isMetaRec r) ∧
    getCacheMetadata (storeDevices c8State [] false 100).1 = some ⟨100, 0⟩ := by
  have h := claim_C8_amended c8State 100
  have h2 := h.2 (by decide)
  exact ⟨h.1, h2.1, h2.2.1⟩

/-- Claim C3 counterexample: on the reachable cache state built by a full
refresh of one device at `t = 50`, `getAllDevices` returns the
cache-metadata record alongside the device record — the claim that the
metadata record is never included is false. -/
theorem claim_C3_counterexample :
    getAllDevices c3State = [.dev aCacheDevice, .meta ⟨50, 1⟩] ∧
    (getAllDevices c3State).any isMetaRec = true := by
  decide

/-- Claim C3 amended: `getAllDevices` returns the full contents of the
object store — after a full refresh of `ds`, every device record *and*
the cache-metadata record (stored under `cache_metadata` in the same
store); callers must filter the metadata record out themselves. -/
theorem claim_C3_amended :
    ∀ (ds : List CacheDevice) (now : Int),
      (∀ d ∈ ds, d.id ≠ CACHE_META_KEY) →
      (ds.map (fun d => d.id)).Nodup →
      getAllDevices ((storeDevices [] ds true now).1) =
        ds.map StoredRec.dev ++ [.meta ⟨now, ds.length⟩] := by
  intro ds now hkey hnodup
  by_cases hempty : ds.isEmpty
  · rw [List.isEmpty_iff] at hempty
    subst hempty
    simp [storeDevices, storeCacheMetadata, idbPut, getAllDevices]
  · unfold storeDevices getAllDevices
    rw [if_neg (by simpa using hempty)]
    simp only [Bool.not_true, if_true, if_false]
    rw [foldl_idbPut_devs ds [] (by intro d _ r hr; simp at hr) hnodup]
    rw [storeCacheMetadata_append]
    · simp
    · intro r hr
      obtain ⟨d, hd, hdr⟩ := List.mem_map.mp (by simpa using hr)
      subst hdr
      rw [recId_dev]
      exact hkey d hd

/-- Witness for C3: the amended behavior for one device stored by a
full refresh at `t = 50`. -/
theorem claim_C3_witness :
    getAllDevices ((storeDevices [] [aCacheDevice] true 50).1) =
      [StoredRec.dev aCacheDevice, .meta ⟨50, 1⟩] := by
  have h := claim_C3_amended [aCacheDevice] 50 (by decide) (by decide)
  simpa using h

/-- The conversion phase preserves the element count (`converted +
skipped = total`), produces one document id per converted device, and
counts as skipped exactly the elements whose conversion returns
`null`. -/
theorem convertPhase_counts (user : ImportUser) (importedAt : String) :
    ∀ els : List Element,
      (convertPhase user importedAt els).1.length +
          (convertPhase user importedAt els).2.2 = els.length ∧
      (convertPhase user importedAt els).2.1.length =
          (convertPhase user importedAt els).1.length ∧
      (convertPhase user importedAt els).2.2 =
        (els.filter
          (fun el => (convertOSMToPeekBack el importedAt).isNone)).length := by
  intro els
  induction els with
  | nil => simp [convertPhase]
  | cons el rest ih =>
    obtain ⟨ih1, ih2, ih3⟩ := ih
    cases hc : convertOSMToPeekBack el importedAt with
    | none =>
      refine ⟨?_, ?_, ?_⟩ <;> simp [convertPhase, hc, List.filter_cons] <;> omega
    | some d =>
      refine ⟨?_, ?_, ?_⟩ <;> simp [convertPhase, hc, List.filter_cons] <;> omega

/-- The batch loop accounts for every record of the slices it visits:
`imported + errors` equals the number of records in the `remaining`
batches starting at index `i`, and `errors` is exactly the sum of the
`count` fields of the `errorsList` entries. -/
theorem importBatches_counts {σ : Type}
    (write : σ → List ImportDoc → List String → σ × Option String)
    (devices : List ImportDoc) (ids : List String) :
    ∀ (remaining i : Nat) (s : σ),
      (importBatches write devices ids remaining i s).2.1 +
          (importBatches write devices ids remaining i s).2.2.1 =
        min (500 * remaining) (devices.length - i) ∧
      (importBatches write devices ids remaining i s).2.2.1 =
        ((importBatches write devices ids remaining i s).2.2.2.map
          (fun e => e.count)).sum := by
  intro remaining
  induction remaining with
  | zero => intro i s; simp [importBatches]
  | succ r ih =>
    intro i s
    have hbatch : ((devices.drop i).take 500).length = min 500 (devices.length - i) := by
      simp [List.length_take, List.length_drop]
    obtain ⟨ih1, ih2⟩ :=
      ih (i + 500) (write s ((devices.drop i).take 500) ((ids.drop i).take 500)).1
    cases hstep : (write s ((devices.drop i).take 500) ((ids.drop i).take 500)).2 with
    | none =>
      refine ⟨?_, ?_⟩ <;> simp only [importBatches, hstep] <;>
        simp [hbatch, ih2] at ih1 ⊢ <;> omega
    | some msg =>
      refine ⟨?_, ?_⟩ <;> simp only [importBatches, hstep] <;>
        simp [hbatch, ih2] at ih1 ⊢ <;> omega

/-- Claim C10: for every input list of external elements and every
(possibly failing, arbitrarily stateful) batch-write function, the
result of `importOSMData` satisfies `imported + skipped + errors =
total` with `total` the input length: every element is counted exactly
once — as `skipped` when its conversion returns `null`, and otherwise
as `imported` or as an error according to its batch's write outcome
(`errors` is exactly the sum of the failed batches' record counts). -/
theorem claim_C10_accounting :
    ∀ {σ : Type} (write : σ → List ImportDoc → List String → σ × Option String)
      (s : σ) (osmElements : List Element) (user : ImportUser) (importedAt : String),
      ((importOSMData write s osmElements user importedAt).2.imported +
        (importOSMData write s osmElements user importedAt).2.skipped +
        (importOSMData write s osmElements user importedAt).2.errors =
        (importOSMData write s osmElements user importedAt).2.total) ∧
      (importOSMData write s osmElements user importedAt).2.total =
        osmElements.length ∧
      (importOSMData write s osmElements user importedAt).2.skipped =
        (osmElements.filter
          (fun el => (convertOSMToPeekBack el importedAt).isNone)).length ∧
      (importOSMData write s osmElements user importedAt).2.errors =
        (((importOSMData write s osmElements user importedAt).2.errorsList).map
          (fun e => e.count)).sum := by
  intro sigma write s els user importedAt
  obtain ⟨hc1, hc2, hc3⟩ := convertPhase_counts user importedAt els
  obtain ⟨hb1, hb2⟩ :=
    importBatches_counts write (convertPhase user importedAt els).1
      (convertPhase user importedAt els).2.1
      (((convertPhase user importedAt els).1.length + 499) / 500) 0 s
  refine ⟨?_, rfl, ?_, ?_⟩ <;> simp only [importOSMData] <;>
    [skip; exact hc3; exact hb2]
  simp only [Nat.sub_zero] at hb1
  omega

/-- Keys after one JS-`Map` insertion: unchanged when the key was
present (in-place overwrite), appended otherwise. -/
theorem keys_jsMapInsert (acc : List (Int × Element)) (k : Int) (v : Element) :
    (jsMapInsert acc k v).map Prod.fst =
      if (acc.any (fun p => p.1 = k)) = true then acc.map Prod.fst
      else acc.map Prod.fst ++ [k] := by
  unfold jsMapInsert
  split_ifs with h
  · rw [List.map_map]
    refine List.map_congr_left ?_
    intro p _
    by_cases hp : p.1 = k
    · simp [hp]
    · simp [hp]
  · simp

/-- Keys of the JS `Map` built by folding insertions: no duplicates, and
a key is present exactly when it was present initially or is the id of
some folded element. -/
theorem jsMapFold_keys : ∀ (l : List Element) (acc : List (Int × Element)),
    (acc.map Prod.fst).Nodup →
    ((l.foldl (fun a el => jsMapInsert a el.id el) acc).map Prod.fst).Nodup ∧
    (∀ x, (x ∈ (l.foldl (fun a el => jsMapInsert a el.id el) acc).map Prod.fst) ↔
      (x ∈ acc.map Prod.fst ∨ ∃ el ∈ l, el.id = x)) := by
  intro l
  induction l with
  | nil =>
    intro acc h
    refine ⟨by simpa using h, ?_⟩
    intro x
    simp
  | cons el rest ih =>
    intro acc h
    have hkeys := keys_jsMapInsert acc el.id el
    by_cases hmem : (acc.any (fun p => p.1 = el.id)) = true
    · have hk : (jsMapInsert acc el.id el).map Prod.fst = acc.map Prod.fst := by
        rw [hkeys, if_pos hmem]
      obtain ⟨ihn, ihm⟩ := ih (jsMapInsert acc el.id el) (by rw [hk]; exact h)
      have hidmem : el.id ∈ acc.map Prod.fst := by
        simp only [List.any_eq_true, decide_eq_true_eq] at hmem
        obtain ⟨p, hp, he⟩ := hmem
        exact he ▸ List.mem_map_of_mem _ hp
      refine ⟨by simpa using ihn, ?_⟩
      intro x
      simp only [List.foldl_cons]
      rw [ihm x, hk]
      constructor
      · rintro (hx | ⟨e, he, hex⟩)
        · exact Or.inl hx
        · exact Or.inr ⟨e, by simp [he], hex⟩
      · rintro (hx | ⟨e, he, hex⟩)
        · exact Or.inl hx
        · rcases List.mem_cons.mp he with he | he
          · subst he
            exact Or.inl (hex ▸ hidmem)
          · exact Or.inr ⟨e, he, hex⟩
    · have hk : (jsMapInsert acc el.id el).map Prod.fst = acc.map Prod.fst ++ [el.id] := by
        rw [hkeys, if_neg hmem]
      have hnew : el.id ∉ acc.map Prod.fst := by
        intro hx
        obtain ⟨p, hp, he⟩ := List.mem_map.mp hx
        exact hmem (by simp only [List.any_eq_true, decide_eq_true_eq]; exact ⟨p, hp, he⟩)
      have hnodup2 : ((jsMapInsert acc el.id el).map Prod.fst).Nodup := by
        rw [hk]
        simp [List.nodup_append, h, hnew]
      obtain ⟨ihn, ihm⟩ := ih _ hnodup2
      refine ⟨by simpa using ihn, ?_⟩
      intro x
      simp only [List.foldl_cons]
      rw [ihm x, hk]
      simp only [List.mem_append, List.mem_singleton]
      constructor
      · rintro ((hx | hx) | ⟨e, he, hex⟩)
        · exact Or.inl hx
        · exact Or.inr ⟨el, by simp, hx.symm⟩
        · exact Or.inr ⟨e, by simp [he], hex⟩
      · rintro (hx | ⟨e, he, hex⟩)
        · exact Or.inl (Or.inl hx)
        · rcases List.mem_cons.mp he with he | he
          · subst he
            exact Or.inl (Or.inr hex.symm)
          · exact Or.inr ⟨e, he, hex⟩

/-- Every entry of the JS `Map` keeps its element's id as its key. -/
theorem jsMapFold_snd : ∀ (l : List Element) (acc : List (Int × Element)),
    (∀ p ∈ acc, p.2.id = p.1) →
    ∀ p ∈ l.foldl (fun a el => jsMapInsert a el.id el) acc, p.2.id = p.1 := by
  intro l
  induction l with
  | nil =>
    intro acc h
    simpa using h
  | cons el rest ih =>
    intro acc h
    refine ih _ ?_
    intro p hp
    simp only [jsMapInsert] at hp
    split_ifs at hp with hc
    · obtain ⟨q, hq, hqe⟩ := List.mem_map.mp hp
      by_cases hqk : q.1 = el.id
      · rw [if_pos hqk] at hqe
        subst hqe
        rfl
      · rw [if_neg hqk] at hqe
        subst hqe
        exact h q hq
    · rcases List.mem_append.mp hp with hp | hp
      · exact h p hp
      · simp only [List.mem_singleton] at hp
        subst hp
        rfl

/-- The deduplicated list has pairwise-distinct OSM ids. -/
theorem dedupById_ids_nodup (l : List Element) :
    ((dedupById l).map (fun el => el.id)).Nodup := by
  unfold dedupById jsMapOfElements
  rw [List.map_map]
  have hsnd := jsMapFold_snd l [] (by simp)
  have hkeys := (jsMapFold_keys l [] (by simp)).1
  have hmc : List.map ((fun el => el.id) ∘ fun p : ℤ × Element => p.2)
      (List.foldl (fun acc el => jsMapInsert acc el.id el) [] l) =
      List.map Prod.fst (List.foldl (fun acc el => jsMapInsert acc el.id el) [] l) := by
    refine List.map_congr_left ?_
    intro p hp
    simp only [Function.comp]
    exact hsnd p hp
  rw [hmc]
  exact hkeys

/-- Deduplication preserves exactly the set of ids of its input. -/
theorem dedupById_mem_ids (l : List Element) (x : Int) :
    (∃ el ∈ dedupById l, el.id = x) ↔ ∃ el ∈ l, el.id = x := by
  have hm := (jsMapFold_keys l [] (by simp)).2 x
  simp only [List.map_nil, List.not_mem_nil, false_or] at hm
  rw [← hm]
  unfold dedupById jsMapOfElements
  constructor
  · rintro ⟨el, hel, hex⟩
    obtain ⟨p, hp, hpe⟩ := List.mem_map.mp hel
    have := jsMapFold_snd l [] (by simp) p hp
    exact List.mem_map.mpr ⟨p, hp, by rw [← this, hpe, hex]⟩
  · intro hx
    obtain ⟨p, hp, hpe⟩ := List.mem_map.mp hx
    have := jsMapFold_snd l [] (by simp) p hp
    exact ⟨p.2, List.mem_map_of_mem _ hp, by rw [this, hpe]⟩

/-- The chunk loop of `queryOSMALPRsBatched`, recomputed over the
indexed chunk list: the collected elements are the concatenation of the
successful chunks' results in order, and the failure list holds one
`{chunk: i+1, error}` entry per failed chunk, in order. -/
theorem batchedLoop_spec (responses : Nat → Nat → FetchOutcome) :
    ∀ (chunks : List BBox) (i : Nat),
      (batchedLoop responses chunks i).1 =
        (chunks.enumFrom i).flatMap (fun p =>
          match (queryOSMALPRs p.2 (responses p.1) 0 3).result with
          | .ok els => els
          | .error _ => []) ∧
      (batchedLoop responses chunks i).2 =
        (chunks.enumFrom i).filterMap (fun p =>
          match (queryOSMALPRs p.2 (responses p.1) 0 3).result with
          | .ok _ => none
          | .error msg => some ⟨p.1 + 1, msg⟩) := by
  intro chunks
  induction chunks with
  | nil => intro i; simp [batchedLoop]
  | cons c rest ih =>
    intro i
    obtain ⟨ih1, ih2⟩ := ih (i + 1)
    cases hr : (queryOSMALPRs c (responses i) 0 3).result with
    | ok els =>
      constructor <;>
        simp [batchedLoop, List.enumFrom, hr, ih1, ih2, List.filterMap_cons]
    | error msg =>
      constructor <;>
        simp [batchedLoop, List.enumFrom, hr, ih1, ih2, List.filterMap_cons]

/-- Claim C2 counterexample: the claim says the *return value* of
`queryOSMALPRsBatched` consists of the unique records together with the
failed chunk indices.  Two concrete runs — one whose only chunk fails
permanently with HTTP 400, one whose only chunk succeeds with an empty
result — have identical return values but different failure lists, so
the return value cannot contain the failed chunk indices: those are
reported only through the final progress-callback event. -/
theorem claim_C2_counterexample :
    c2RunFailed.ret = c2RunEmpty.ret ∧
    c2RunFailed.failedChunks ≠ c2RunEmpty.failedChunks := by
  decide

/-- Claim C2 amended: when some chunks of the `n × n` split fail
permanently, `queryOSMALPRsBatched` records each failure as its 1-based
chunk index plus the error message, continues with the remaining
chunks, whose successful results all contribute to the merged set
deduplicated by OSM id (the merged ids are exactly the successful
chunks' ids, without duplicates); the *return value* is the unique
record list only, while the failed-chunk list (enabling a caller to
retry only those) is delivered through the final progress-callback
event, whose status is `partial` exactly when some chunk failed. -/
theorem claim_C2_amended :
    ∀ (bounds : BBox) (n : Nat) (responses : Nat → Nat → FetchOutcome),
      (queryOSMALPRsBatched bounds n responses).failedChunks =
        ((splitBoundingBox bounds n).enum).filterMap (fun p =>
          match (queryOSMALPRs p.2 (responses p.1) 0 3).result with
          | .ok _ => none
          | .error msg => some ⟨p.1 + 1, msg⟩) ∧
      (queryOSMALPRsBatched bounds n responses).ret =
        dedupById (((splitBoundingBox bounds n).enum).flatMap (fun p =>
          match (queryOSMALPRs p.2 (responses p.1) 0 3).result with
          | .ok els => els
          | .error _ => [])) ∧
      ((queryOSMALPRsBatched bounds n responses).ret.map (fun el => el.id)).Nodup ∧
      (∀ x : Int,
        (∃ el ∈ (queryOSMALPRsBatched bounds n responses).ret, el.id = x) ↔
        (∃ p ∈ (splitBoundingBox bounds n).enum, ∃ els,
          (queryOSMALPRs p.2 (responses p.1) 0 3).result = .ok els ∧
            ∃ el ∈ els, el.id = x)) ∧
      (queryOSMALPRsBatched bounds n responses).status =
        (if (queryOSMALPRsBatched bounds n responses).failedChunks = []
          then "complete" else "partial") := by
  intro bounds n responses
  obtain ⟨h1, h2⟩ := batchedLoop_spec responses (splitBoundingBox bounds n) 0
  have henum : (splitBoundingBox bounds n).enumFrom 0 = (splitBoundingBox bounds n).enum := rfl
  rw [henum] at h1 h2
  refine ⟨?_, ?_, ?_, ?_, ?_⟩
  · simpa [queryOSMALPRsBatched] using h2
  · simpa [queryOSMALPRsBatched, h1] using rfl
  · show ((dedupById (batchedLoop responses (splitBoundingBox bounds n) 0).1).map
      (fun el => el.id)).Nodup
    exact dedupById_ids_nodup _
  · intro x
    have hd := dedupById_mem_ids (batchedLoop responses (splitBoundingBox bounds n) 0).1 x
    have hret : (queryOSMALPRsBatched bounds n responses).ret =
        dedupById (batchedLoop responses (splitBoundingBox bounds n) 0).1 := rfl
    rw [hret, hd, h1]
    constructor
    · intro hx
      obtain ⟨el, hel, hex⟩ := hx
      obtain ⟨p, hp, hpe⟩ := List.mem_flatMap.mp hel
      cases hres : (queryOSMALPRs p.2 (responses p.1) 0 3).result with
      | ok els =>
        rw [hres] at hpe
        exact ⟨p, hp, els, hres, el, hpe, hex⟩
      | error msg =>
        rw [hres] at hpe
        simp at hpe
    · rintro ⟨p, hp, els, hres, el, hel, hex⟩
      refine ⟨el, List.mem_flatMap.mpr ⟨p, hp, ?_⟩, hex⟩
      rw [hres]
      exact hel
  · show (if (batchedLoop responses (splitBoundingBox bounds n) 0).2.length > 0
        then "partial" else "complete") = _
    have hfc : (queryOSMALPRsBatched bounds n responses).failedChunks =
        (batchedLoop responses (splitBoundingBox bounds n) 0).2 := rfl
    rw [hfc]
    rcases (batchedLoop responses (splitBoundingBox bounds n) 0).2 with _ | ⟨a, rest⟩
    · simp
    · simp

/-- A key is hit by `any` exactly when it is among the keys. -/
theorem any_key_fsSet (docs : List (String × FSDoc)) (k : String) :
    (docs.any (fun p => p.1 = k)) = true ↔ k ∈ docs.map Prod.fst := by
  simp only [List.any_eq_true, decide_eq_true_eq, List.mem_map]

/-- Keys after a `set`: unchanged when the document id was present
(overwrite in place), appended otherwise. -/
theorem keys_fsSet (docs : List (String × FSDoc)) (id : String) (d : FSDoc) :
    (fsSet docs id d).map Prod.fst =
      if (docs.any (fun p => p.1 = id)) = true then docs.map Prod.fst
      else docs.map Prod.fst ++ [id] := by
  unfold fsSet
  split_ifs with h
  · rw [List.map_map]
    refine List.map_congr_left ?_
    intro p _
    by_cases hp : p.1 = id
    · simp [hp]
    · simp [hp]
  · simp

/-- The document id written by a `set` is among the resulting keys. -/
theorem mem_keys_fsSet (docs : List (String × FSDoc)) (id : String) (d : FSDoc) :
    id ∈ (fsSet docs id d).map Prod.fst := by
  rw [keys_fsSet]
  split_ifs with h
  · exact (any_key_fsSet docs id).mp h
  · simp

/-- A `set` preserves key uniqueness. -/
theorem nodup_keys_fsSet (docs : List (String × FSDoc)) (id : String) (d : FSDoc)
    (h : (docs.map Prod.fst).Nodup) :
    ((fsSet docs id d).map Prod.fst).Nodup := by
  rw [keys_fsSet]
  split_ifs with hp
  · exact h
  · have : id ∉ docs.map Prod.fst := fun hm => hp ((any_key_fsSet docs id).mpr hm)
    simp [List.nodup_append, h, this]

/-- A `set` on a store already holding the key leaves the key list
unchanged. -/
theorem keys_fsSet_of_mem (docs : List (String × FSDoc)) (id : String) (d : FSDoc)
    (h : id ∈ docs.map Prod.fst) :
    (fsSet docs id d).map Prod.fst = docs.map Prod.fst := by
  rw [keys_fsSet, if_pos ((any_key_fsSet docs id).mpr h)]

/-- Lemma: `importOSMData` wired to `batchAddDevices` on a single convertible
element performs exactly one keyed `set` with the deterministic
document id. -/
theorem importOSMDataFS_singleton (s : FSStore) (now : Int) (e : Element)
    (user : ImportUser) (importedAt : String) (d : PBDevice)
    (hconv : convertOSMToPeekBack e importedAt = some d) :
    (importOSMDataFS s now [e] user importedAt).1 =
      { docs := fsSet s.docs (generateOSMDocumentId d.osmId d.osmType)
          (mkFSDoc now (mkImportDoc user d))
        nextAuto := s.nextAuto } := by
  simp [importOSMDataFS, importOSMData, convertPhase, hconv, importBatches,
    batchAddDevices]

/-- Claim C4: importing the same external record twice results in exactly
one document in the remote store: the generated identifier is the
deterministic `osm_{type}_{id}` composition, so the second import's
batch write overwrites the existing document (same key set, and the
document id occurs exactly once) rather than inserting a duplicate. -/
theorem claim_C4_idempotent_reimport :
    ∀ (s0 : FSStore) (now1 now2 : Int) (e : Element) (user : ImportUser)
      (importedAt : String) (d : PBDevice),
      convertOSMToPeekBack e importedAt = some d →
      (s0.docs.map Prod.fst).Nodup →
      ((importOSMDataFS ((importOSMDataFS s0 now1 [e] user importedAt).1)
          now2 [e] user importedAt).1.docs.map Prod.fst =
        (importOSMDataFS s0 now1 [e] user importedAt).1.docs.map Prod.fst ∧
      ((importOSMDataFS s0 now1 [e] user importedAt).1.docs.map Prod.fst).count
          (generateOSMDocumentId d.osmId d.osmType) = 1 ∧
      ((importOSMDataFS ((importOSMDataFS s0 now1 [e] user importedAt).1)
          now2 [e] user importedAt).1.docs.map Prod.fst).count
          (generateOSMDocumentId d.osmId d.osmType) = 1 ∧
      generateOSMDocumentId d.osmId d.osmType =
        "osm_" ++ d.osmType.str ++ "_" ++ toString d.osmId) := by
  intro s0 now1 now2 e user importedAt d hconv hnodup
  rw [importOSMDataFS_singleton s0 now1 e user importedAt d hconv]
  rw [importOSMDataFS_singleton _ now2 e user importedAt d hconv]
  set key := generateOSMDocumentId d.osmId d.osmType with hkey
  have hmem1 : key ∈ (fsSet s0.docs key (mkFSDoc now1 (mkImportDoc user d))).map
      Prod.fst := mem_keys_fsSet _ _ _
  have hnodup1 : ((fsSet s0.docs key (mkFSDoc now1 (mkImportDoc user d))).map
      Prod.fst).Nodup := nodup_keys_fsSet _ _ _ hnodup
  have hkeys2 := keys_fsSet_of_mem
    (fsSet s0.docs key (mkFSDoc now1 (mkImportDoc user d))) key
    (mkFSDoc now2 (mkImportDoc user d)) hmem1
  refine ⟨hkeys2, ?_, ?_, rfl⟩
  · exact List.count_eq_one_of_mem hnodup1 hmem1
  · rw [hkeys2]
    exact List.count_eq_one_of_mem hnodup1 hmem1

/-- Witness for C4: importing the bare node twice into the empty store
leaves one document under `osm_node_42`, with an unchanged key set. -/
theorem claim_C4_witness :
    ((importOSMDataFS ((importOSMDataFS emptyFS 10 [aNode] ⟨"u", true⟩ "t0").1)
        20 [aNode] ⟨"u", true⟩ "t0").1.docs.map Prod.fst =
      (importOSMDataFS emptyFS 10 [aNode] ⟨"u", true⟩ "t0").1.docs.map Prod.fst) ∧
    ((importOSMDataFS emptyFS 10 [aNode] ⟨"u", true⟩ "t0").1.docs.map
        Prod.fst).count (generateOSMDocumentId 42 .node) = 1 := by
  have h := claim_C4_idempotent_reimport emptyFS 10 20 aNode ⟨"u", true⟩ "t0"
    { type := "other", latitude := some 1, longitude := some 2, address := none,
      description := none, source := "osm", osmId := 42, osmType := .node,
      importedAt := "t0" }
    (by decide) (by decide)
  exact ⟨h.1, h.2.1⟩

/-- The cells produced by `splitBoundingBox` are exactly the
`gridCell`s with row and column indices below `n`. -/
theorem mem_splitBoundingBox (b : BBox) (n : ℕ) (c : BBox) :
    c ∈ splitBoundingBox b n ↔ ∃ i < n, ∃ j < n, c = gridCell b n i j := by
  unfold splitBoundingBox
  simp only [List.mem_flatMap, List.mem_map, List.mem_range]
  constructor
  · rintro ⟨i, hi, j, hj, h⟩
    exact ⟨i, hi, j, hj, h.symm⟩
  · rintro ⟨i, hi, j, hj, h⟩
    exact ⟨i, hi, j, hj, h.symm⟩

/-- Lemma: `splitBoundingBox` produces `n * n` cells. -/
theorem length_splitBoundingBox (b : BBox) (n : ℕ) :
    (splitBoundingBox b n).length = n * n := by
  unfold splitBoundingBox
  rw [List.length_flatMap]
  simp only [Function.comp_def, List.length_map, List.length_range,
    List.map_const', List.sum_replicate, smul_eq_mul]

/-- A point between two consecutive grid lines lies inside the original
interval. -/
theorem interval_cell_subset (S N : ℚ) (n i : ℕ) (hn : 1 ≤ n) (hle : S ≤ N)
    (hi : i < n) (x : ℚ) (h1 : S + i * ((N - S) / n) ≤ x)
    (h2 : x ≤ S + (i + 1) * ((N - S) / n)) : S ≤ x ∧ x ≤ N := by
  have hn0 : (0 : ℚ) < n := by exact_mod_cast hn
  have hstep : (0 : ℚ) ≤ (N - S) / n := div_nonneg (by linarith) hn0.le
  have hi0 : (0 : ℚ) ≤ (i : ℚ) := Nat.cast_nonneg i
  constructor
  · nlinarith
  · have hi1 : ((i : ℚ) + 1) ≤ (n : ℚ) := by exact_mod_cast hi
    have hmul : ((i : ℚ) + 1) * ((N - S) / n) ≤ (n : ℚ) * ((N - S) / n) :=
      mul_le_mul_of_nonneg_right hi1 hstep
    have hcancel : (n : ℚ) * ((N - S) / n) = N - S := by
      field_simp
    linarith
  -- (hi is required so the cell is a genuine grid cell; `nlinarith`
  -- uses only nonnegativity for the lower bound)

/-- Every point of the interval lies in some grid cell: the index of
the floor of its scaled offset, capped at `n - 1`. -/
theorem interval_index (S N : ℚ) (n : ℕ) (hn : 1 ≤ n) (hle : S ≤ N) (x : ℚ)
    (hx1 : S ≤ x) (hx2 : x ≤ N) :
    ∃ i < n, S + i * ((N - S) / n) ≤ x ∧ x ≤ S + (i + 1) * ((N - S) / n) := by
  have hn0 : (0 : ℚ) < n := by exact_mod_cast hn
  set h := (N - S) / n with hh
  have hstep : (0 : ℚ) ≤ h := div_nonneg (by linarith) hn0.le
  rcases eq_or_lt_of_le hstep with hzero | hpos
  · -- degenerate interval: h = 0 forces N = S and x = S
    have hNS : N - S = 0 := by
      have := hzero.symm
      rw [hh] at this
      field_simp at this
      exact this
    refine ⟨0, by omega, ?_, ?_⟩
    · simpa using hx1
    · have : x ≤ S := by linarith
      simpa [← hzero] using this
  · set k : ℤ := ⌊(x - S) / h⌋ with hk
    have hk0 : 0 ≤ k := Int.floor_nonneg.mpr (div_nonneg (by linarith) hpos.le)
    have hfl : (k : ℚ) ≤ (x - S) / h := Int.floor_le _
    have hfu : (x - S) / h < (k : ℚ) + 1 := Int.lt_floor_add_one _
    have hcast : ((k.toNat : ℚ)) = (k : ℚ) := by
      exact_mod_cast congrArg (fun z : ℤ => (z : ℚ)) (Int.toNat_of_nonneg hk0)
    by_cases hkn : k.toNat < n
    · refine ⟨k.toNat, hkn, ?_, ?_⟩
      · have : (k : ℚ) * h ≤ x - S := by rwa [← le_div_iff₀ hpos]
        rw [hcast]
        linarith
      · have : x - S < ((k : ℚ) + 1) * h := by rwa [div_lt_iff₀ hpos] at hfu
        rw [hcast]
        linarith
    · -- the scaled offset reaches n, so x = N; the last cell works
      have hkInt : (n : ℤ) ≤ k := by omega
      have hnk : (n : ℚ) ≤ (k : ℚ) := by exact_mod_cast hkInt
      have hge : (n : ℚ) * h ≤ x - S := by
        rw [← le_div_iff₀ hpos]
        linarith
      have hcancel : (n : ℚ) * h = N - S := by
        rw [hh]
        field_simp
      have hxN : x = N := le_antisymm hx2 (by linarith)
      have hc1 : ((n - 1 : ℕ) : ℚ) = (n : ℚ) - 1 := by
        have : (1 : ℕ) ≤ n := hn
        push_cast [Nat.cast_sub this]
        ring
      refine ⟨n - 1, by omega, ?_, ?_⟩
      · rw [hc1]
        nlinarith
      · rw [hc1]
        have : ((n : ℚ) - 1 + 1) * h = (n : ℚ) * h := by ring
        rw [this, hcancel]
        linarith

/-- Distinct cells of one dimension have disjoint open intervals. -/
theorem interval_interior_disj (S h : ℚ) (h0 : 0 ≤ h) (i i2 : ℕ) (hii : i < i2)
    (x : ℚ) (ha : x < S + (i + 1) * h) (hb : S + i2 * h < x) : False := by
  have hle : ((i : ℚ) + 1) ≤ (i2 : ℚ) := by exact_mod_cast hii
  have := mul_le_mul_of_nonneg_right hle h0
  linarith

/-- Claim C6: for every region with `south ≤ north`, `west ≤ east` and
grid size `n ≥ 1`, `splitBoundingBox` returns exactly `n × n`
sub-regions of equal latitude span and equal longitude span obtained by
linear interpolation, whose union exactly reconstructs the original
bounding box with no gaps, whose distinct cells overlap at most on
shared edges (open interiors are disjoint), and in which each cell's
north/east boundary coincides with its neighbour's south/west
boundary (`SplitSpec`). -/
theorem claim_C6_region_split_coverage :
    ∀ (b : BBox) (n : ℕ), b.south ≤ b.north → b.west ≤ b.east → 1 ≤ n →
      SplitSpec b n := by
  intro b n hs hw hn
  have hmem := mem_splitBoundingBox b n
  refine ⟨length_splitBoundingBox b n, ?_, hmem, ?_, ?_, ?_⟩
  · -- equal spans
    intro c hc
    obtain ⟨i, hi, j, hj, rfl⟩ := (hmem c).mp hc
    unfold gridCell
    constructor
    · ring
    · ring
  · -- union reconstructs the box
    intro lat lon
    constructor
    · rintro ⟨h1, h2, h3, h4⟩
      obtain ⟨i, hi, hia, hib⟩ := interval_index b.south b.north n hn hs lat h1 h2
      obtain ⟨j, hj, hja, hjb⟩ := interval_index b.west b.east n hn hw lon h3 h4
      exact ⟨gridCell b n i j, (hmem _).mpr ⟨i, hi, j, hj, rfl⟩,
        hia, hib, hja, hjb⟩
    · rintro ⟨c, hc, hcb⟩
      obtain ⟨i, hi, j, hj, rfl⟩ := (hmem c).mp hc
      obtain ⟨h1, h2, h3, h4⟩ := hcb
      obtain ⟨hA, hB⟩ := interval_cell_subset b.south b.north n i hn hs hi lat h1 h2
      obtain ⟨hC, hD⟩ := interval_cell_subset b.west b.east n j hn hw hj lon h3 h4
      exact ⟨hA, hB, hC, hD⟩
  · -- interiors of distinct cells are disjoint
    intro i j i2 j2 hne lat lon hboth
    obtain ⟨⟨a1, a2, a3, a4⟩, ⟨b1, b2, b3, b4⟩⟩ := hboth
    have hstepLat : (0 : ℚ) ≤ (b.north - b.south) / n := by
      have hn0 : (0 : ℚ) ≤ n := Nat.cast_nonneg n
      exact div_nonneg (by linarith) hn0
    have hstepLon : (0 : ℚ) ≤ (b.east - b.west) / n := by
      have hn0 : (0 : ℚ) ≤ n := Nat.cast_nonneg n
      exact div_nonneg (by linarith) hn0
    by_cases hii : i = i2
    · subst hii
      have hjj : j ≠ j2 := fun e => hne (by rw [e])
      rcases lt_or_gt_of_ne hjj with hlt | hgt
      · exact interval_interior_disj b.west _ hstepLon j j2 hlt lon a4 b3
      · exact interval_interior_disj b.west _ hstepLon j2 j hgt lon b4 a3
    · rcases lt_or_gt_of_ne hii with hlt | hgt
      · exact interval_interior_disj b.south _ hstepLat i i2 hlt lat a2 b1
      · exact interval_interior_disj b.south _ hstepLat i2 i hgt lat b2 a1
  · -- neighbouring cells share their boundary lines
    intro i j
    constructor
    · show b.south + ((i + 1 : ℕ) : ℚ) * ((b.north - b.south) / n) =
        b.south + (((i : ℚ)) + 1) * ((b.north - b.south) / n)
      push_cast
      ring
    · show b.west + ((j + 1 : ℕ) : ℚ) * ((b.east - b.west) / n) =
        b.west + (((j : ℚ)) + 1) * ((b.east - b.west) / n)
      push_cast
      ring

/-- Witness for C6: the split specification holds for scenario B's
region `{south: 40.5, north: 40.9, west: -74.3, east: -73.7}` with
`n = 3`. -/
theorem claim_C6_witness :
    SplitSpec { south := 40.5, north := 40.9, west := -74.3, east := -73.7 } 3 :=
  claim_C6_region_split_coverage _ 3 (by norm_num) (by norm_num) (by norm_num)

end PeekBack
